import Mathlib

/-!
Shallow embedding of the JSONL keyword-filtering scripts
`filtering.py` and `filtering_parallel.py`.

Python values that can appear in the `matched_keywords` field (after
`json.loads`) or come out of `ast.literal_eval` are modelled by `PyVal`.
Python's `ast.literal_eval` and `json.loads` are external library
functions; they enter the embedding as explicit function parameters
(`ev : String → Option PyVal`, where `Option.none` models the call
raising, and `jparse : String → Option Tweet`).  Exceptions raised by
repository code are modelled with `Except Unit`.
-/

/-- Model of a Python value as produced by `json.loads` on the
`matched_keywords` field or by `ast.literal_eval`: `None`, a bool, an
int, a string, or a list. -/
inductive PyVal where
  | none
  | bool (b : Bool)
  | int (n : Int)
  | str (s : String)
  | list (l : List PyVal)

/-- Model of Python `str.isspace` for the characters relevant to
`str.strip()` and `str.split()`: the ASCII whitespace characters. -/
def pyIsSpace (c : Char) : Bool :=
  c = ' ' || c = '\t' || c = '\n' || c = '\r' || c = '\x0b' || c = '\x0c'

/-- Membership in Python's `string.punctuation`, i.e. the ASCII
characters in the ranges 33–47, 58–64, 91–96 and 123–126. -/
def pyPunct (c : Char) : Bool :=
  (33 ≤ c.toNat && c.toNat ≤ 47) || (58 ≤ c.toNat && c.toNat ≤ 64) ||
  (91 ≤ c.toNat && c.toNat ≤ 96) || (123 ≤ c.toNat && c.toNat ≤ 126)

/-- Drop the characters satisfying `p` from both ends of a character list. -/
def dropEnds (p : Char → Bool) (l : List Char) : List Char :=
  ((l.dropWhile p).reverse.dropWhile p).reverse

/-- Model of Python `s.strip()`: remove whitespace from both ends. -/
def pyStrip (s : String) : String :=
  String.mk (dropEnds pyIsSpace s.data)

/-- Model of Python `s.strip(string.punctuation)`: remove ASCII
punctuation characters from both ends. -/
def pyStripPunct (s : String) : String :=
  String.mk (dropEnds pyPunct s.data)

/-- Split a character list at every whitespace character, keeping the
(possibly empty) groups in between. -/
def splitGroups : List Char → List (List Char)
  | [] => [[]]
  | c :: rest =>
    match splitGroups rest with
    | [] => [[]]
    | g :: gs => if pyIsSpace c then [] :: g :: gs else (c :: g) :: gs

/-- Model of Python `s.split()`: the maximal whitespace-free runs, i.e.
split on whitespace and drop empty pieces. -/
def pySplit (s : String) : List String :=
  ((splitGroups s.data).map String.mk).filter (fun t => t ≠ "")

/-- Cleaning of one token as in `_clean_tokens`: `t.strip().strip(string.punctuation)`. -/
def cleanToken (t : String) : String :=
  pyStripPunct (pyStrip t)

/-- Model of `_clean_tokens` applied to a list of strings: clean each
token, keeping (in order) the ones that are nonempty after cleaning. -/
def clean_tokens : List String → List String
  | [] => []
  | t :: rest =>
    let c := cleanToken t
    if c = "" then clean_tokens rest else c :: clean_tokens rest

/-- Model of `_clean_tokens` applied to a list of arbitrary Python
values, as reached from the `list` branch of
`safe_parse_matched_keywords`: calling `.strip()` on a non-string
element raises `AttributeError`, modelled as `Except.error ()`. -/
def cleanTokensE : List PyVal → Except Unit (List String)
  | [] => .ok []
  | .str t :: rest =>
    (cleanTokensE rest).map (fun r =>
      let c := cleanToken t
      if c = "" then r else c :: r)
  | _ :: _ => .error ()

/-- Printed form `str(v)` of a scalar `ast.literal_eval` result, used by
the non-list branch of `safe_parse_matched_keywords`.  The `list` arm is
never reached there (lists are dispatched to `_clean_tokens` first). -/
def pyStrScalar : PyVal → String
  | .none => "None"
  | .bool true => "True"
  | .bool false => "False"
  | .int n => toString n
  | .str s => s
  | .list _ => ""

/-- Model of `safe_parse_matched_keywords`.  `ev` stands for
`ast.literal_eval`; `ev s = Option.none` models the call raising.  The
bare `except:` around the decode branch catches both a failing decode
and an `AttributeError` raised while cleaning the decoded list, falling
back to whitespace-splitting the stripped string.  The `list` branch has
no such protection, so a cleaning error there propagates outward. -/
def safe_parse_matched_keywords (ev : String → Option PyVal) :
    PyVal → Except Unit (List String)
  | .none => .ok []
  | .list l => cleanTokensE l
  | .str s0 =>
    let s := pyStrip s0
    if s = "" then .ok []
    else
      let tryBlock : Except Unit (List String) :=
        match ev s with
        | Option.none => .error ()
        | Option.some (.list l) => cleanTokensE l
        | Option.some v => .ok (clean_tokens (pySplit (pyStrScalar v)))
      match tryBlock with
      | .ok r => .ok r
      | .error _ => .ok (clean_tokens (pySplit s))
  | _ => .ok []

/-- Lowercasing of one character as in Python `str.lower()`, restricted
to the characters occurring in this program's keyword literals and
inputs: ASCII letters, the Turkish letters Ü Ö Ç Ş Ğ, and dotted İ
(which lowercases to the two-character sequence i U+0307). -/
def pyLowerChar (c : Char) : List Char :=
  if 65 ≤ c.toNat ∧ c.toNat ≤ 90 then [Char.ofNat (c.toNat + 32)]
  else if c = Char.ofNat 0x130 then [Char.ofNat 0x69, Char.ofNat 0x307]
  else if c = Char.ofNat 0xDC then [Char.ofNat 0xFC]
  else if c = Char.ofNat 0xD6 then [Char.ofNat 0xF6]
  else if c = Char.ofNat 0xC7 then [Char.ofNat 0xE7]
  else if c = Char.ofNat 0x15E then [Char.ofNat 0x15F]
  else if c = Char.ofNat 0x11E then [Char.ofNat 0x11F]
  else [c]

/-- Model of Python `s.lower()` on the character repertoire of this
program. -/
def pyLower (s : String) : String :=
  String.mk (s.data.map pyLowerChar).flatten

/-- Substring occurrence test on character lists: `needle` occurs
contiguously inside `hay`. -/
def listInfixOf : List Char → List Char → Bool
  | needle, [] => needle.isEmpty
  | needle, h :: t => needle.isPrefixOf (h :: t) || listInfixOf needle t

/-- Model of Python `needle in haystack` on strings: substring test. -/
def pyInStr (needle haystack : String) : Bool :=
  listInfixOf needle.data haystack.data

/-- Keyword Set A of `filtering.py` (`kurdish_keywords`), in source
order; the Python set literal only deduplicates, which is irrelevant to
the `any`-based membership tests. -/
def kurdishKeywordsV1 : List String :=
  ["kürt", "kürt", "kürtler", "hadep", "hdp", "bdp", "ysp", "dem",
   "demokratik islam kongresi", "sivil cuma", "özerklik", "barzani",
   "talabani", "rojava", "kobane", "kobani", "kdp", "ynk", "ypg",
   "terörist", "ermeni", "süryani", "kürt sorunu",
   "selahattin demirtaş", "apo", "selo", "öcalan", "kdp", "kurd",
   "Kurd", "kurdish", "pkk", "kck", "kürdistan", "bölücülük",
   "şeyh sait", "şeyh said", "terör örgütü", "terör propogandası",
   "kandil", "selo", "vatansız"]

/-- Keyword Set B of `filtering.py` (`islam_keywords`), in source order. -/
def islamKeywordsV1 : List String :=
  ["islam", "islam", "müslüman", "musluman", "din", "dinsiz", "dindar",
   "islamcı", "müslümanlar", "ümmet", "seküler", "şeriat", "müslümanız",
   "dinimiz bir", "dinimizden uzak", "hepimiz müslüman",
   "gerçek müslüman", "gerçek islam", "islamı satanlar",
   "islam düşmanı", "kafir", "dinimizden", "allahsız", "ateist",
   "şeyh", "molla"]

/-- Keyword Set A of `filtering_parallel.py` (`kurdish_keywords`).  The
source relies on Python implicit string concatenation in three places,
yielding the single literals "terörkandil", "direnişirojava" and
"devrimiterörle". -/
def kurdishKeywordsV2 : List String :=
  ["kürt", "kürt", "kürtler", "hadep", "hdp", "bdp", "ysp", "dem",
   "demokratik islam kongresi", "sivil cuma", "özerklik", "barzani",
   "talabani", "rojava", "kobane", "kobani", "kdp", "ynk", "ypg",
   "terörist", "ermeni", "süryani", "kürt sorunu",
   "selahattin demirtaş", "apo", "selo", "öcalan", "kdp", "kurd",
   "Kurd", "kurdish", "pkk", "kck", "kürdistan", "bölücülük",
   "şeyh sait", "şeyh said", "terör örgütü", "terör propogandası",
   "terörkandil", "selo", "vatansız", "kürdistanlı", "kürdistan",
   "kobani", "direnişirojava", "devrimiterörle", "mücadele", "kürd",
   "kürtler", "terörizm", "ilişkisi", "kürt siyaseti", "kürdistan"]

/-- ASCII apostrophe as a one-character string. -/
def apos : String := String.mk [Char.ofNat 39]

/-- Keyword Set B of `filtering_parallel.py` (`islam_keywords`), in
source order. -/
def islamKeywordsV2 : List String :=
  ["islam", "islam", "müslüman", "musluman", "din", "dinsiz", "dindar",
   "islamcı", "müslümanlar", "ümmet", "seküler", "şeriat", "müslümanız",
   "dinimiz bir", "dinimizden uzak", "hepimiz müslüman",
   "gerçek müslüman", "gerçek islam", "islamı satanlar",
   "islam düşmanı", "kafir", "dinimizden", "allahsız", "ateist",
   "şeyh", "molla", "islam", "İslam", "moslem", "müslüman", "musluman",
   "muselman", "müslüm", "din", "dinn", "dinim", "dinsiz", "dinsizz",
   "dindar", "dindarr", "islamcı", "islamcıl", "müslümanlar",
   "müslimanlar", "ümmet", "ümmett", "ümme", "seküler", "sekuler",
   "secular", "şeriat", "şeriaat", "müslümanız", "müslümünüz",
   "dinimiz bir", "dinimizden uzak", "hepimiz müslüman",
   "hepimiz musluman", "gerçek müslüman", "gerçek islam",
   "islamı satanlar", "islam düşmanı", "kafir", "kafer", "dinimizden",
   "allahsız", "allahsız", "ateist", "ateıst", "şeyh", "şeyyh", "molla",
   "mollaa", "imam", "hoca", "hocaa", "kuran", "kur" ++ apos ++ "an",
   "quran", "peygamber", "peygamaber", "pbuh", "sav", "allah", "alllah",
   "allaaah", "cc", "c.c.", "inşallah", "inş", "maşallah", "maş",
   "mashallah"]

/-- Model of one parsed input record: the result of
`tweet.get("matched_keywords", None)` and of
`tweet.get("tweet_text", "")` (the latter a string, the only case the
fallback path handles without raising). -/
structure Tweet where
  matched_keywords : PyVal
  tweet_text : String

/-- Model of `any(k.lower() in matched_list for k in keywords)`:
exact membership of the lowercased keyword in the token list. -/
def tokenMatch (keywords matched_list : List String) : Bool :=
  keywords.any (fun k => matched_list.contains (pyLower k))

/-- Model of `any(k.lower() in tweet_txt for k in keywords)`:
substring occurrence of the lowercased keyword in the text. -/
def textMatch (keywords : List String) (txt : String) : Bool :=
  keywords.any (fun k => pyInStr (pyLower k) txt)

/-- Result of `check_tweet`: either a reject dictionary or an accept
dictionary carrying the raw input line. -/
inductive CheckResult where
  | reject
  | accept (line : String)

/-- Model of `check_tweet` from `filtering_parallel.py`.  `jparse`
stands for `json.loads` plus the two `.get` field reads; `Option.none`
models a `json.JSONDecodeError`.  An exception escaping
`safe_parse_matched_keywords` propagates out of `check_tweet`. -/
def check_tweet (ev : String → Option PyVal)
    (jparse : String → Option Tweet) (line : String) :
    Except Unit CheckResult :=
  match jparse line with
  | Option.none => .ok .reject
  | Option.some tweet =>
    match safe_parse_matched_keywords ev tweet.matched_keywords with
    | .error e => .error e
    | .ok ml =>
      let matched_list := ml.map pyLower
      let kurdish_match := tokenMatch kurdishKeywordsV2 matched_list
      let islam_match := tokenMatch islamKeywordsV2 matched_list
      if kurdish_match && islam_match then .ok (.accept line)
      else
        let tweet_txt := pyLower tweet.tweet_text
        let kurdish_txt_match := textMatch kurdishKeywordsV2 tweet_txt
        let islam_txt_match := textMatch islamKeywordsV2 tweet_txt
        if kurdish_txt_match && islam_txt_match then .ok (.accept line)
        else .ok .reject

/-- Run-wide mutable state of either script: the `total_tweets` and
`kept_tweets` counters and the sequence of lines written to the output
file. -/
structure LoopState where
  total : Nat
  kept : Nat
  out : List String

/-- Model of one iteration of the main loop of `filtering.py` on one
input line.  `dumps` stands for `json.dumps(tweet, ensure_ascii=False)`
on the parsed record.  An exception escaping
`safe_parse_matched_keywords` aborts the run. -/
def processLineV1 (ev : String → Option PyVal)
    (jparse : String → Option Tweet) (dumps : Tweet → String)
    (st : LoopState) (line : String) : Except Unit LoopState :=
  let st1 : LoopState := ⟨st.total + 1, st.kept, st.out⟩
  match jparse line with
  | Option.none => .ok st1
  | Option.some tweet =>
    match safe_parse_matched_keywords ev tweet.matched_keywords with
    | .error e => .error e
    | .ok ml =>
      let matched_list := ml.map pyLower
      let kurdish_match := tokenMatch kurdishKeywordsV1 matched_list
      let islam_match := tokenMatch islamKeywordsV1 matched_list
      if kurdish_match && islam_match then
        .ok ⟨st1.total, st1.kept + 1, st1.out ++ [dumps tweet ++ "\n"]⟩
      else .ok st1

/-- Model of the whole main loop of `filtering.py` over the input lines. -/
def runLoopV1 (ev : String → Option PyVal)
    (jparse : String → Option Tweet) (dumps : Tweet → String) :
    List String → LoopState → Except Unit LoopState
  | [], st => .ok st
  | line :: rest, st =>
    match processLineV1 ev jparse dumps st line with
    | .error e => .error e
    | .ok st1 => runLoopV1 ev jparse dumps rest st1

/-- Lowercase hexadecimal digit, as used by `json.dumps` control
escapes. -/
def jsonHexDigit (n : Nat) : Char :=
  if n < 10 then Char.ofNat (48 + n) else Char.ofNat (87 + n)

/-- Escaping of one character by `json.dumps` with
`ensure_ascii=False`. -/
def jsonEscapeChar (c : Char) : List Char :=
  if c = Char.ofNat 34 then [Char.ofNat 92, Char.ofNat 34]
  else if c = Char.ofNat 92 then [Char.ofNat 92, Char.ofNat 92]
  else if c = '\n' then [Char.ofNat 92, 'n']
  else if c = '\r' then [Char.ofNat 92, 'r']
  else if c = '\t' then [Char.ofNat 92, 't']
  else if c = Char.ofNat 8 then [Char.ofNat 92, 'b']
  else if c = Char.ofNat 12 then [Char.ofNat 92, 'f']
  else if c.toNat < 32 then
    [Char.ofNat 92, 'u', '0', '0',
     jsonHexDigit (c.toNat / 16), jsonHexDigit (c.toNat % 16)]
  else [c]

/-- Model of `json.dumps(s, ensure_ascii=False)` applied to a STRING
value `s`: the result is a double-quoted JSON string literal. -/
def jsonDumpsStr (s : String) : String :=
  String.mk ((Char.ofNat 34 :: (s.data.map jsonEscapeChar).flatten)
    ++ [Char.ofNat 34])

/-- Model of one iteration of the writer loop of
`filtering_parallel.py`: `kept_tweets` is incremented for EVERY result,
`total_tweets` is never incremented, and an accepted result has
`json.dumps(linedct["line"], ensure_ascii=False)` written followed by a
newline, with a second `kept_tweets` increment. -/
def writerStep (st : LoopState) (r : CheckResult) : LoopState :=
  let st1 : LoopState := ⟨st.total, st.kept + 1, st.out⟩
  match r with
  | .reject => st1
  | .accept line =>
    ⟨st1.total, st1.kept + 1, st1.out ++ [jsonDumpsStr line ++ "\n"]⟩

/-- Model of the whole writer loop of `filtering_parallel.py` over the
stream of `check_tweet` results. -/
def writerRun : List CheckResult → LoopState → LoopState
  | [], st => st
  | r :: rest, st => writerRun rest (writerStep st r)

/-- Concrete stand-in for `ast.literal_eval` that always raises. -/
def evNone : String → Option PyVal := fun _ => Option.none

/-- Concrete stand-in for `ast.literal_eval` that decodes the literal
"[1, 2]" to the Python list `[1, 2]` and raises on anything else. -/
def evPair : String → Option PyVal := fun s =>
  if s = "[1, 2]" then Option.some (PyVal.list [PyVal.int 1, PyVal.int 2])
  else Option.none

/-- Concrete stand-in for `ast.literal_eval` exercising all three decode
outcomes: a list literal, a scalar literal, and a failing decode. -/
def evDemo : String → Option PyVal := fun s =>
  if s = "LK" then
    Option.some (PyVal.list [PyVal.str ("Kürt,"), PyVal.str ("PKK,")])
  else if s = "SC" then Option.some (PyVal.int 42)
  else Option.none

/-- Concrete record whose keyword field holds one literal of each set. -/
def tweetBoth : Tweet := ⟨PyVal.list [PyVal.str ("pkk"), PyVal.str ("islam")], ""⟩

/-- Concrete input line for `tweetBoth`. -/
def jline : String := "\x7b\"matched_keywords\": [\"pkk\", \"islam\"]\x7d\n"

/-- Concrete stand-in for `json.loads` that parses `jline` to
`tweetBoth` and fails on every other line. -/
def jparse0 : String → Option Tweet := fun s =>
  if s = jline then Option.some tweetBoth else Option.none

/-- Concrete stand-in for `json.dumps` on parsed records. -/
def dumps0 : Tweet → String := fun _ =>
  "\x7b\"matched_keywords\": [\"pkk\", \"islam\"]\x7d"

/-- Initial counter/output state of either script. -/
def st0 : LoopState := ⟨0, 0, []⟩

/-- Concrete record with no keyword field whose text body holds one
literal of each set. -/
def tweetFT : Tweet := ⟨PyVal.none, "pkk islam"⟩

/-- Concrete input line for `tweetFT`. -/
def lineFT : String := "\x7b\"tweet_text\": \"pkk islam\"\x7d\n"

/-- Concrete stand-in for `json.loads` that parses `lineFT` to
`tweetFT` and fails on every other line. -/
def jparseFT : String → Option Tweet := fun s =>
  if s = lineFT then Option.some tweetFT else Option.none

lemma dropWhile_eq_self_of_prefix {p : Char → Bool} {r m : List Char}
    (hpre : r <+: m) (hm : m.dropWhile p = m) : r.dropWhile p = r := by
  cases r with
  | nil => rfl
  | cons x xs =>
    obtain ⟨t, ht⟩ := hpre
    have hx : ¬ p x = true := by
      intro hpx
      subst ht
      rw [List.cons_append, List.dropWhile_cons_of_pos hpx] at hm
      have hlen := congrArg List.length hm
      have hle : (List.dropWhile p (xs ++ t)).length ≤ (xs ++ t).length :=
        (List.dropWhile_sublist p).length_le
      simp [List.length_append] at hlen hle
      omega
    simp [List.dropWhile_cons_of_neg hx]

lemma dropEnds_eq_rdropWhile (p : Char → Bool) (l : List Char) :
    dropEnds p l = List.rdropWhile p (l.dropWhile p) := rfl

lemma dropEnds_idempotent (p : Char → Bool) (l : List Char) :
    dropEnds p (dropEnds p l) = dropEnds p l := by
  have hpre : dropEnds p l <+: l.dropWhile p := by
    rw [dropEnds_eq_rdropWhile]
    exact List.rdropWhile_prefix p (l.dropWhile p)
  have h1 : (dropEnds p l).dropWhile p = dropEnds p l :=
    dropWhile_eq_self_of_prefix hpre (List.dropWhile_idempotent p l)
  rw [dropEnds_eq_rdropWhile p (dropEnds p l), h1, dropEnds_eq_rdropWhile,
    List.rdropWhile_idempotent]

lemma pyStripPunct_idempotent (s : String) :
    pyStripPunct (pyStripPunct s) = pyStripPunct s := by
  show String.mk (dropEnds pyPunct (String.mk (dropEnds pyPunct s.data)).data)
      = String.mk (dropEnds pyPunct s.data)
  exact congrArg String.mk (dropEnds_idempotent pyPunct s.data)

lemma cleanToken_fixed {t c : String} (hc : c = cleanToken t)
    (hws : pyStrip c = c) : cleanToken c = c := by
  have : cleanToken c = pyStripPunct c := by rw [cleanToken, hws]
  rw [this, hc, cleanToken, pyStripPunct_idempotent]

lemma clean_tokens_fixed : ∀ out : List String,
    (∀ c ∈ out, cleanToken c = c ∧ c ≠ "") → clean_tokens out = out := by
  intro out
  induction out with
  | nil => intro _; rfl
  | cons c rest ih =>
    intro h
    have hc := h c (List.mem_cons_self c rest)
    have hrest := fun x hx => h x (List.mem_cons_of_mem c hx)
    simp only [clean_tokens, hc.1]
    rw [if_neg hc.2, ih hrest]

lemma clean_tokens_shape : ∀ (l : List String) (c : String),
    c ∈ clean_tokens l → (∃ t, c = cleanToken t) ∧ c ≠ "" := by
  intro l
  induction l with
  | nil => intro c hc; cases hc
  | cons t rest ih =>
    intro c hc
    by_cases h0 : cleanToken t = ""
    · rw [clean_tokens, if_pos h0] at hc
      exact ih c hc
    · rw [clean_tokens, if_neg h0] at hc
      rcases List.mem_cons.mp hc with h | h
      · exact ⟨⟨t, h⟩, h ▸ h0⟩
      · exact ih c h

lemma cleanTokensE_map_str : ∀ ts : List String,
    cleanTokensE (ts.map PyVal.str) = .ok (clean_tokens ts) := by
  intro ts
  induction ts with
  | nil => rfl
  | cons t rest ih =>
    simp only [List.map_cons, cleanTokensE, ih, Except.map, clean_tokens]

lemma cleanTokensE_shape : ∀ (l : List PyVal) (out : List String),
    cleanTokensE l = .ok out →
    ∀ c ∈ out, (∃ t, c = cleanToken t) ∧ c ≠ "" := by
  intro l
  induction l with
  | nil =>
    intro out h c hc
    cases h
    cases hc
  | cons v rest ih =>
    intro out h c hc
    cases v with
    | str t =>
      simp only [cleanTokensE] at h
      cases hrest : cleanTokensE rest with
      | error e => rw [hrest] at h; cases h
      | ok r =>
        rw [hrest] at h
        simp only [Except.map] at h
        by_cases h0 : cleanToken t = ""
        · rw [if_pos h0] at h
          cases h
          exact ih _ hrest c hc
        · rw [if_neg h0] at h
          cases h
          rcases List.mem_cons.mp hc with hh | hh
          · exact ⟨⟨t, hh⟩, hh ▸ h0⟩
          · exact ih _ hrest c hh
    | none => cases h
    | bool b => cases h
    | int n => cases h
    | list m => cases h

lemma clean_tokens_eq_filter : ∀ l : List String,
    clean_tokens l = (l.map cleanToken).filter (fun c => c ≠ "") := by
  intro l
  induction l with
  | nil => rfl
  | cons t rest ih =>
    by_cases h0 : cleanToken t = "" <;>
      simp [clean_tokens, ih, List.filter_cons, h0]

lemma safe_parse_str_list_ok (ev : String → Option PyVal) (s0 : String)
    (l : List PyVal) (r : List String) (hs : ¬ pyStrip s0 = "")
    (hev : ev (pyStrip s0) = Option.some (PyVal.list l))
    (hcl : cleanTokensE l = .ok r) :
    safe_parse_matched_keywords ev (PyVal.str s0) = .ok r := by
  simp only [safe_parse_matched_keywords, hev, if_neg hs, hcl]

lemma safe_parse_str_list_err (ev : String → Option PyVal) (s0 : String)
    (l : List PyVal) (hs : ¬ pyStrip s0 = "")
    (hev : ev (pyStrip s0) = Option.some (PyVal.list l))
    (hcl : cleanTokensE l = .error ()) :
    safe_parse_matched_keywords ev (PyVal.str s0) =
      .ok (clean_tokens (pySplit (pyStrip s0))) := by
  simp only [safe_parse_matched_keywords, hev, if_neg hs, hcl]

lemma safe_parse_str_scalar (ev : String → Option PyVal) (s0 : String)
    (v : PyVal) (hs : ¬ pyStrip s0 = "")
    (hev : ev (pyStrip s0) = Option.some v)
    (hnl : ∀ l, v ≠ PyVal.list l) :
    safe_parse_matched_keywords ev (PyVal.str s0) =
      .ok (clean_tokens (pySplit (pyStrScalar v))) := by
  cases v with
  | list l => exact absurd rfl (hnl l)
  | none => simp only [safe_parse_matched_keywords, hev, if_neg hs]
  | bool b => simp only [safe_parse_matched_keywords, hev, if_neg hs]
  | int n => simp only [safe_parse_matched_keywords, hev, if_neg hs]
  | str s => simp only [safe_parse_matched_keywords, hev, if_neg hs]

lemma safe_parse_str_fail (ev : String → Option PyVal) (s0 : String)
    (hs : ¬ pyStrip s0 = "") (hev : ev (pyStrip s0) = Option.none) :
    safe_parse_matched_keywords ev (PyVal.str s0) =
      .ok (clean_tokens (pySplit (pyStrip s0))) := by
  simp only [safe_parse_matched_keywords, hev, if_neg hs]

lemma safe_parse_shape (ev : String → Option PyVal) (v : PyVal)
    (out : List String)
    (h : safe_parse_matched_keywords ev v = .ok out) :
    ∀ c ∈ out, (∃ t, c = cleanToken t) ∧ c ≠ "" := by
  cases v with
  | none => cases h; intro c hc; cases hc
  | bool b => cases h; intro c hc; cases hc
  | int n => cases h; intro c hc; cases hc
  | list l => exact cleanTokensE_shape l out h
  | str s0 =>
    simp only [safe_parse_matched_keywords] at h
    by_cases hs : pyStrip s0 = ""
    · rw [if_pos hs] at h; cases h; intro c hc; cases hc
    · rw [if_neg hs] at h
      split at h
      next r heq =>
        cases h
        split at heq
        next => cases heq
        next x l hev => exact cleanTokensE_shape l _ heq
        next x v2 hev hne =>
          cases heq
          exact clean_tokens_shape _
      next e heq =>
        cases h
        exact clean_tokens_shape _

/-- C4: the claim says `safe_parse_matched_keywords` never raises for
any input type.  The code refutes it: on the list `[1, 2]` the `list`
branch calls `_clean_tokens` outside any `try`, and `.strip()` on a
non-string raises `AttributeError`, which propagates outward. -/
theorem safe_parse_raises_on_nonstring_list :
    safe_parse_matched_keywords evNone
      (PyVal.list [PyVal.int 1, PyVal.int 2]) = .error () := rfl

/-- C8: for a list-valued keyword field of strings, normalization cleans
each token (strip whitespace, then strip leading/trailing ASCII
punctuation), drops tokens that become empty, preserves the relative
order of the survivors (the output is a sublist of the cleaned mapped
list), and on the spec example `["Kürt,", "PKK."]` yields
`["Kürt", "PKK"]`. -/
theorem list_field_cleaning (ev : String → Option PyVal)
    (ts : List String) :
    safe_parse_matched_keywords ev (PyVal.list (ts.map PyVal.str)) =
      .ok ((ts.map cleanToken).filter (fun c => c ≠ ""))
    ∧ List.Sublist ((ts.map cleanToken).filter (fun c => c ≠ ""))
        (ts.map cleanToken)
    ∧ safe_parse_matched_keywords ev
        (PyVal.list [PyVal.str ("Kürt,"), PyVal.str ("PKK.")]) =
        .ok (["Kürt", "PKK"]) := by
  refine ⟨?_, List.filter_sublist _, rfl⟩
  show cleanTokensE (ts.map PyVal.str) = _
  rw [cleanTokensE_map_str, clean_tokens_eq_filter]

/-- C9 (counterexample): normalization is NOT idempotent on its own
output.  Cleaning strips whitespace before punctuation, so stripping
punctuation can expose interior whitespace at token edges: the input
`[", a ,"]` normalizes to `[" a "]`, and re-normalizing that output
yields `["a"]`, not `[" a "]`. -/
theorem normalization_not_idempotent :
    safe_parse_matched_keywords evNone
      (PyVal.list [PyVal.str (", a ,")]) = .ok ([" a "])
    ∧ safe_parse_matched_keywords evNone
        (PyVal.list (([" a "]).map PyVal.str)) = .ok (["a"])
    ∧ ([" a "] : List String) ≠ (["a"] : List String) :=
  ⟨rfl, rfl, by decide⟩

/-- C9 (amended): normalization is idempotent on every output whose
tokens carry no leading or trailing whitespace: re-normalizing such an
output returns it unchanged. -/
theorem normalization_idempotent_on_wsfree (ev : String → Option PyVal)
    (v : PyVal) (out : List String)
    (h : safe_parse_matched_keywords ev v = .ok out)
    (hws : ∀ c ∈ out, pyStrip c = c) :
    safe_parse_matched_keywords ev (PyVal.list (out.map PyVal.str)) =
      .ok out := by
  have hshape := safe_parse_shape ev v out h
  have hfix : ∀ c ∈ out, cleanToken c = c ∧ c ≠ "" := by
    intro c hc
    obtain ⟨⟨t, ht⟩, hne⟩ := hshape c hc
    exact ⟨cleanToken_fixed ht (hws c hc), hne⟩
  show cleanTokensE (out.map PyVal.str) = .ok out
  rw [cleanTokensE_map_str, clean_tokens_fixed out hfix]

/-- Witness for the amended C9 theorem at the concrete input `["x,"]`,
whose normalization `["x"]` is whitespace-free and reproduces itself. -/
theorem normalization_idempotent_on_wsfree_witness :
    safe_parse_matched_keywords evNone
      (PyVal.list ((["x"]).map PyVal.str)) = .ok (["x"]) :=
  normalization_idempotent_on_wsfree evNone
    (PyVal.list [PyVal.str ("x,")]) (["x"]) rfl (by decide)

/-- C10: the string branch of `safe_parse_matched_keywords` never
raises, whatever `ast.literal_eval` does: every string input yields an
`ok` token list, and when the decoded literal is the non-string list
`[1, 2]` the cleaning error is caught by the bare `except` and the
original string is whitespace-split and cleaned, yielding
`["1", "2"]`. -/
theorem string_branch_never_raises :
    (∀ (ev : String → Option PyVal) (s : String),
        ∃ r, safe_parse_matched_keywords ev (PyVal.str s) = .ok r)
    ∧ (∀ ev : String → Option PyVal,
        ev ("[1, 2]") = Option.some (PyVal.list [PyVal.int 1, PyVal.int 2]) →
        safe_parse_matched_keywords ev (PyVal.str ("[1, 2]")) =
          .ok (["1", "2"])) := by
  constructor
  · intro ev s
    by_cases hs : pyStrip s = ""
    · exact ⟨[], by simp only [safe_parse_matched_keywords, if_pos hs]⟩
    · cases hev : ev (pyStrip s) with
      | none => exact ⟨_, safe_parse_str_fail ev s hs hev⟩
      | some pv =>
        cases pv with
        | list l =>
          cases hcl : cleanTokensE l with
          | ok r => exact ⟨r, safe_parse_str_list_ok ev s l r hs hev hcl⟩
          | error e =>
            cases e
            exact ⟨_, safe_parse_str_list_err ev s l hs hev hcl⟩
        | none =>
          exact ⟨_, safe_parse_str_scalar ev s PyVal.none hs hev
            (fun l h => PyVal.noConfusion h)⟩
        | bool b =>
          exact ⟨_, safe_parse_str_scalar ev s (PyVal.bool b) hs hev
            (fun l h => PyVal.noConfusion h)⟩
        | int n =>
          exact ⟨_, safe_parse_str_scalar ev s (PyVal.int n) hs hev
            (fun l h => PyVal.noConfusion h)⟩
        | str t =>
          exact ⟨_, safe_parse_str_scalar ev s (PyVal.str t) hs hev
            (fun l h => PyVal.noConfusion h)⟩
  · intro ev hev
    have hs : ¬ pyStrip ("[1, 2]") = "" := by decide
    have hev2 : ev (pyStrip ("[1, 2]")) =
        Option.some (PyVal.list [PyVal.int 1, PyVal.int 2]) := hev
    have h := safe_parse_str_list_err ev ("[1, 2]")
      [PyVal.int 1, PyVal.int 2] hs hev2 rfl
    rw [h]
    rfl

/-- Witness for C10 with the concrete decoder `evPair`. -/
theorem string_branch_never_raises_witness :
    safe_parse_matched_keywords evPair (PyVal.str ("[1, 2]")) =
      .ok (["1", "2"]) :=
  string_branch_never_raises.2 evPair rfl

/-- C6: for a nonblank string-valued keyword field the three decoding
strategies apply in order: a decoded sequence is cleaned elementwise; a
decoded non-sequence scalar has its printed form whitespace-split and
cleaned; a failed decode falls back to whitespace-splitting the
(stripped) original string and cleaning. -/
theorem string_field_three_strategies (ev : String → Option PyVal)
    (s0 : String) (hs : ¬ pyStrip s0 = "") :
    (∀ ts : List String,
        ev (pyStrip s0) = Option.some (PyVal.list (ts.map PyVal.str)) →
        safe_parse_matched_keywords ev (PyVal.str s0) =
          .ok (clean_tokens ts))
    ∧ (∀ v : PyVal, ev (pyStrip s0) = Option.some v →
        (∀ l, v ≠ PyVal.list l) →
        safe_parse_matched_keywords ev (PyVal.str s0) =
          .ok (clean_tokens (pySplit (pyStrScalar v))))
    ∧ (ev (pyStrip s0) = Option.none →
        safe_parse_matched_keywords ev (PyVal.str s0) =
          .ok (clean_tokens (pySplit (pyStrip s0)))) := by
  refine ⟨?_, ?_, ?_⟩
  · intro ts hev
    exact safe_parse_str_list_ok ev s0 (ts.map PyVal.str)
      (clean_tokens ts) hs hev (cleanTokensE_map_str ts)
  · intro v hev hnl
    exact safe_parse_str_scalar ev s0 v hs hev hnl
  · intro hev
    exact safe_parse_str_fail ev s0 hs hev

/-- Witness for C6 with the concrete decoder `evDemo`, exercising the
list, scalar, and failing decode strategies. -/
theorem string_field_three_strategies_witness :
    safe_parse_matched_keywords evDemo (PyVal.str ("LK")) =
      .ok (clean_tokens (["Kürt,", "PKK,"]))
    ∧ safe_parse_matched_keywords evDemo (PyVal.str ("SC")) =
        .ok (clean_tokens (pySplit (pyStrScalar (PyVal.int 42))))
    ∧ safe_parse_matched_keywords evDemo (PyVal.str ("zz")) =
        .ok (clean_tokens (pySplit (pyStrip ("zz")))) :=
  ⟨(string_field_three_strategies evDemo ("LK") (by decide)).1
      (["Kürt,", "PKK,"]) rfl,
   (string_field_three_strategies evDemo ("SC") (by decide)).2.1
      (PyVal.int 42) rfl (fun l h => PyVal.noConfusion h),
   (string_field_three_strategies evDemo ("zz") (by decide)).2.2 rfl⟩

lemma tokenMatch_iff (keywords matched_list : List String) :
    tokenMatch keywords matched_list = true ↔
      ∃ k ∈ keywords, matched_list.contains (pyLower k) = true := by
  unfold tokenMatch
  exact List.any_eq_true

lemma textMatch_iff (keywords : List String) (txt : String) :
    textMatch keywords txt = true ↔
      ∃ k ∈ keywords, pyInStr (pyLower k) txt = true := by
  unfold textMatch
  exact List.any_eq_true

/-- C1: a parsed record is kept by the token-list test iff some Set-A
keyword and some Set-B keyword (lowercased) are exact members of the
lowercased token list; a record matching only one set is never kept by
`filtering.py`, and `check_tweet` accepts only when both sets match on
tokens or both match on the text fallback. -/
theorem keep_requires_both_sets (ev : String → Option PyVal)
    (jparse : String → Option Tweet) (dumps : Tweet → String)
    (st : LoopState) (line : String) (tweet : Tweet) (ml : List String)
    (hj : jparse line = Option.some tweet)
    (hp : safe_parse_matched_keywords ev tweet.matched_keywords = .ok ml) :
    (processLineV1 ev jparse dumps st line =
        .ok ⟨st.total + 1, st.kept + 1, st.out ++ [dumps tweet ++ "\n"]⟩
      ↔ ((∃ k ∈ kurdishKeywordsV1, (ml.map pyLower).contains (pyLower k) = true)
         ∧ (∃ k ∈ islamKeywordsV1, (ml.map pyLower).contains (pyLower k) = true)))
    ∧ (¬ ((∃ k ∈ kurdishKeywordsV1, (ml.map pyLower).contains (pyLower k) = true)
          ∧ (∃ k ∈ islamKeywordsV1, (ml.map pyLower).contains (pyLower k) = true)) →
        processLineV1 ev jparse dumps st line = .ok ⟨st.total + 1, st.kept, st.out⟩)
    ∧ (∀ l2, check_tweet ev jparse line = .ok (CheckResult.accept l2) →
        ((∃ k ∈ kurdishKeywordsV2, (ml.map pyLower).contains (pyLower k) = true)
         ∧ (∃ k ∈ islamKeywordsV2, (ml.map pyLower).contains (pyLower k) = true))
        ∨ ((∃ k ∈ kurdishKeywordsV2, pyInStr (pyLower k) (pyLower tweet.tweet_text) = true)
           ∧ (∃ k ∈ islamKeywordsV2, pyInStr (pyLower k) (pyLower tweet.tweet_text) = true))) := by
  have hmain : processLineV1 ev jparse dumps st line =
      (if (tokenMatch kurdishKeywordsV1 (ml.map pyLower)
          && tokenMatch islamKeywordsV1 (ml.map pyLower)) = true then
        Except.ok ⟨st.total + 1, st.kept + 1, st.out ++ [dumps tweet ++ "\n"]⟩
      else Except.ok ⟨st.total + 1, st.kept, st.out⟩) := by
    simp only [processLineV1, hj, hp]
  refine ⟨?_, ?_, ?_⟩
  · constructor
    · intro hkeep
      by_cases hc : (tokenMatch kurdishKeywordsV1 (ml.map pyLower)
          && tokenMatch islamKeywordsV1 (ml.map pyLower)) = true
      · rcases Bool.and_eq_true .. |>.mp hc with ⟨h1, h2⟩
        exact ⟨(tokenMatch_iff ..).mp h1, (tokenMatch_iff ..).mp h2⟩
      · rw [hmain, if_neg hc] at hkeep
        simp only [Except.ok.injEq, LoopState.mk.injEq] at hkeep
        omega
    · intro ⟨h1, h2⟩
      have hc : (tokenMatch kurdishKeywordsV1 (ml.map pyLower)
          && tokenMatch islamKeywordsV1 (ml.map pyLower)) = true :=
        Bool.and_eq_true .. |>.mpr
          ⟨(tokenMatch_iff ..).mpr h1, (tokenMatch_iff ..).mpr h2⟩
      rw [hmain, if_pos hc]
  · intro hno
    by_cases hc : (tokenMatch kurdishKeywordsV1 (ml.map pyLower)
        && tokenMatch islamKeywordsV1 (ml.map pyLower)) = true
    · rcases Bool.and_eq_true .. |>.mp hc with ⟨h1, h2⟩
      exact absurd ⟨(tokenMatch_iff ..).mp h1, (tokenMatch_iff ..).mp h2⟩ hno
    · rw [hmain, if_neg hc]
  · intro l2 hacc
    have hchk : check_tweet ev jparse line =
        (if (tokenMatch kurdishKeywordsV2 (ml.map pyLower)
            && tokenMatch islamKeywordsV2 (ml.map pyLower)) = true then
          Except.ok (CheckResult.accept line)
        else if (textMatch kurdishKeywordsV2 (pyLower tweet.tweet_text)
            && textMatch islamKeywordsV2 (pyLower tweet.tweet_text)) = true then
          Except.ok (CheckResult.accept line)
        else Except.ok CheckResult.reject) := by
      simp only [check_tweet, hj, hp]
    by_cases hc1 : (tokenMatch kurdishKeywordsV2 (ml.map pyLower)
        && tokenMatch islamKeywordsV2 (ml.map pyLower)) = true
    · rcases Bool.and_eq_true .. |>.mp hc1 with ⟨h1, h2⟩
      exact Or.inl ⟨(tokenMatch_iff ..).mp h1, (tokenMatch_iff ..).mp h2⟩
    · by_cases hc2 : (textMatch kurdishKeywordsV2 (pyLower tweet.tweet_text)
          && textMatch islamKeywordsV2 (pyLower tweet.tweet_text)) = true
      · rcases Bool.and_eq_true .. |>.mp hc2 with ⟨h1, h2⟩
        exact Or.inr ⟨(textMatch_iff ..).mp h1, (textMatch_iff ..).mp h2⟩
      · rw [hchk, if_neg hc1, if_neg hc2] at hacc
        cases hacc

/-- Witness for C1 at a concrete record holding one literal of each
set. -/
theorem keep_requires_both_sets_witness :
    processLineV1 evNone jparse0 dumps0 st0 jline =
      .ok ⟨st0.total + 1, st0.kept + 1, st0.out ++ [dumps0 tweetBoth ++ "\n"]⟩ :=
  (keep_requires_both_sets evNone jparse0 dumps0 st0 jline tweetBoth
      (["pkk", "islam"]) rfl rfl).1.mpr (by decide)

/-- C2: a parsed record whose token-list test fails is still accepted by
`check_tweet` when the lowercased free-text body contains a lowercased
Set-A literal and a lowercased Set-B literal as substrings. -/
theorem freetext_fallback_keeps (ev : String → Option PyVal)
    (jparse : String → Option Tweet) (line : String) (tweet : Tweet)
    (ml : List String)
    (hj : jparse line = Option.some tweet)
    (hp : safe_parse_matched_keywords ev tweet.matched_keywords = .ok ml)
    (hTok : (tokenMatch kurdishKeywordsV2 (ml.map pyLower)
        && tokenMatch islamKeywordsV2 (ml.map pyLower)) = false)
    (hA : ∃ k ∈ kurdishKeywordsV2, pyInStr (pyLower k) (pyLower tweet.tweet_text) = true)
    (hB : ∃ k ∈ islamKeywordsV2, pyInStr (pyLower k) (pyLower tweet.tweet_text) = true) :
    check_tweet ev jparse line = .ok (CheckResult.accept line) := by
  have hTok2 : ¬ (tokenMatch kurdishKeywordsV2 (ml.map pyLower)
      && tokenMatch islamKeywordsV2 (ml.map pyLower)) = true := by
    rw [hTok]
    exact Bool.false_ne_true
  have hTxt : (textMatch kurdishKeywordsV2 (pyLower tweet.tweet_text)
      && textMatch islamKeywordsV2 (pyLower tweet.tweet_text)) = true :=
    Bool.and_eq_true .. |>.mpr
      ⟨(textMatch_iff ..).mpr hA, (textMatch_iff ..).mpr hB⟩
  simp only [check_tweet, hj, hp]
  rw [if_neg hTok2, if_pos hTxt]

/-- Witness for C2 at a concrete record with no keyword field whose
text body holds one literal of each set. -/
theorem freetext_fallback_keeps_witness :
    check_tweet evNone jparseFT lineFT = .ok (CheckResult.accept lineFT) :=
  freetext_fallback_keeps evNone jparseFT lineFT tweetFT [] rfl rfl
    (by decide) (by decide) (by decide)

/-- C3: the claim says kept records are written as unmodified copies.
The writer of `filtering_parallel.py` refutes it: it applies
`json.dumps` to the raw line STRING, so the accepted line
`jline` is written as a quoted JSON string literal, not as the original
JSON object line. -/
theorem parallel_writer_rewraps_line :
    check_tweet evNone jparse0 jline = .ok (CheckResult.accept jline)
    ∧ writerRun [CheckResult.accept jline] st0 =
        ⟨0, 2, [jsonDumpsStr jline ++ "\n"]⟩
    ∧ jsonDumpsStr jline ++ "\n" ≠ jline :=
  ⟨rfl, rfl, by decide⟩

/-- C5: the claim says the reported totals equal the lines read and the
records written.  The writer loop of `filtering_parallel.py` refutes it:
after one processed and kept line it reports `total_tweets = 0` (never
incremented) and `kept_tweets = 2` (incremented twice), while 1 line was
read and 1 record written. -/
theorem parallel_summary_counters_wrong :
    (writerRun [CheckResult.accept jline] st0).total = 0
    ∧ (writerRun [CheckResult.accept jline] st0).kept = 2
    ∧ (writerRun [CheckResult.accept jline] st0).out.length = 1
    ∧ (writerRun [CheckResult.accept jline] st0).total ≠ ([jline]).length
    ∧ (writerRun [CheckResult.accept jline] st0).kept ≠
        (writerRun [CheckResult.accept jline] st0).out.length :=
  ⟨rfl, rfl, rfl, by decide, by decide⟩

/-- C7: a line that fails structured parsing is skipped: the processed
counter advances, nothing is kept or written, the loop continues with
the remaining lines, and `check_tweet` returns a reject result. -/
theorem malformed_line_skipped (ev : String → Option PyVal)
    (jparse : String → Option Tweet) (dumps : Tweet → String)
    (st : LoopState) (line : String) (rest : List String)
    (hj : jparse line = Option.none) :
    processLineV1 ev jparse dumps st line = .ok ⟨st.total + 1, st.kept, st.out⟩
    ∧ runLoopV1 ev jparse dumps (line :: rest) st =
        runLoopV1 ev jparse dumps rest ⟨st.total + 1, st.kept, st.out⟩
    ∧ check_tweet ev jparse line = .ok CheckResult.reject := by
  have h1 : processLineV1 ev jparse dumps st line =
      .ok ⟨st.total + 1, st.kept, st.out⟩ := by
    simp only [processLineV1, hj]
  refine ⟨h1, ?_, ?_⟩
  · simp only [runLoopV1, h1]
  · simp only [check_tweet, hj]

/-- Witness for C7 at a concrete unparsable line followed by a parsable
one. -/
theorem malformed_line_skipped_witness :
    processLineV1 evNone jparse0 dumps0 st0 ("oops") =
      .ok ⟨st0.total + 1, st0.kept, st0.out⟩
    ∧ runLoopV1 evNone jparse0 dumps0 (("oops") :: [jline]) st0 =
        runLoopV1 evNone jparse0 dumps0 [jline] ⟨st0.total + 1, st0.kept, st0.out⟩
    ∧ check_tweet evNone jparse0 ("oops") = .ok CheckResult.reject :=
  malformed_line_skipped evNone jparse0 dumps0 st0 ("oops") [jline] rfl

/-- C2: the claim says every parsed record whose token-list test fails
is still kept when its lowercased free text contains one Set-A literal
and one Set-B literal as substrings.  `filtering_parallel.py`
implements this fallback: `check_tweet` accepts the concrete record
with no parsable keyword field and text "pkk islam".  `filtering.py`,
also cited by the claim, has no fallback at all: its main loop never
reads `tweet_text`, and on the same record it only advances the
processed counter, keeping and writing nothing. -/
theorem freetext_fallback_dropped_by_v1 :
    check_tweet evNone jparseFT lineFT = .ok (CheckResult.accept lineFT)
    ∧ processLineV1 evNone jparseFT dumps0 st0 lineFT =
        .ok ⟨st0.total + 1, st0.kept, st0.out⟩ :=
  ⟨rfl, rfl⟩
